import Mathlib

/-!
Verification development for `d.py`, a single-file tool that fetches one web
page, downloads its linked stylesheets, rewrites the links to local relative
paths and writes the result under an output directory.

The Python source is embedded shallowly:

* pure helpers (`safe_filename`, `guess_css_name`, and the inline URL
  resolution step of `main`) become Lean functions over `String` / `List Char`;
* the parts of CPython's `urllib.parse` that the source calls (`urljoin`,
  `urlparse`, `urldefrag`, CPython 3.11) are translated function by function;
* the entry point `main` becomes a pure function from an abstract `World`
  (network oracle, parsed page, working directory) to a trace of effects plus
  an outcome; exceptions are explicit `Except` values.

Machine-level caveats of the embedding are noted on each definition.
-/

namespace DPy

/-! ## Character classes

CPython's `str.strip()` strips exactly the code points for which
`Py_UNICODE_ISSPACE` holds; this is the finite list below (complete for all of
Unicode).  The regex class `\w` used by `safe_filename` matches a character `c`
iff `c.isalnum()` holds or `c` is an underscore; that predicate is embedded
exactly on code points up to 0xFF (checked against CPython 3.11).  Code points
above 0xFF are classified as non-word here; no theorem below depends on the
classification of those code points (general theorems are parametric in the
class, and all concrete inputs are within Latin-1). -/

/-- Python `str.isspace` / the set stripped by `str.strip()` (exact). -/
def isPySpace (c : Char) : Bool :=
  let n := c.toNat
  decide ((9 ≤ n ∧ n ≤ 13) ∨ (28 ≤ n ∧ n ≤ 32) ∨ n = 0x85 ∨ n = 0xA0 ∨
    n = 0x1680 ∨ (0x2000 ≤ n ∧ n ≤ 0x200A) ∨ n = 0x2028 ∨ n = 0x2029 ∨
    n = 0x202F ∨ n = 0x205F ∨ n = 0x3000)

/-- Python regex `\w` (Unicode word character: alphanumeric or underscore),
exact on code points ≤ 0xFF, conservatively false above. -/
def isPyWord (c : Char) : Bool :=
  let n := c.toNat
  decide ((48 ≤ n ∧ n ≤ 57) ∨ (65 ≤ n ∧ n ≤ 90) ∨ n = 95 ∨ (97 ≤ n ∧ n ≤ 122) ∨
    n = 0xAA ∨ n = 0xB2 ∨ n = 0xB3 ∨ n = 0xB5 ∨ n = 0xB9 ∨ n = 0xBA ∨
    (0xBC ≤ n ∧ n ≤ 0xBE) ∨ (0xC0 ≤ n ∧ n ≤ 0xFF ∧ n ≠ 0xD7 ∧ n ≠ 0xF7))

/-- Characters replaced by `re.sub(r"[^\w\-.]+", "_", ·)`: everything that is
not a word character, a hyphen or a dot. -/
def isBadFileChar (c : Char) : Bool :=
  !(isPyWord c || c = '-' || c = '.')

/-- Python `str.strip()`: drop leading and trailing whitespace. -/
def pyStrip (l : List Char) : List Char :=
  ((l.dropWhile isPySpace).reverse.dropWhile isPySpace).reverse

/-- Semantics of `re.sub(r"[^\w\-.]+", "_", name)`: every maximal nonempty run
of characters matching `[^\w\-.]` is replaced by a single underscore
(regex substitution is leftmost-longest, hence runs are maximal). -/
def collapseRuns : List Char → List Char
  | [] => []
  | [c] => if isBadFileChar c then ['_'] else [c]
  | c :: c' :: cs =>
    if isBadFileChar c then
      if isBadFileChar c' then collapseRuns (c' :: cs)
      else '_' :: collapseRuns (c' :: cs)
    else c :: collapseRuns (c' :: cs)

/-- Function `safe_filename` from `d.py` (lines 24-28):
strip, substitute runs of disallowed characters, fall back to `default`
when the result is empty (`return name or default`). -/
def safe_filename (name default : String) : String :=
  let n := pyStrip name.toList
  let n := collapseRuns n
  if n = [] then default else ⟨n⟩

/-! ## `urllib.parse` (CPython 3.11)

Translation of the functions of `urllib/parse.py` that `d.py` exercises:
`urlsplit`, `urlparse`, `urlunsplit`, `urlunparse`, `urljoin`, `urldefrag`.
URLs are `List Char`.  Exceptions (`ValueError` on bracket-unbalanced netlocs)
become `Except`.  Two documented restrictions of the model:
`_checknetloc`'s NFKC-compatibility check, which can only raise for non-ASCII
netlocs containing Unicode compatibility characters, is not modelled (treated
as passing); and the `lru_cache` on `urlsplit` is semantically invisible. -/

/-- Python exceptions that the embedded code can raise or catch. -/
inductive PyExc where
  | nameError (name : String)
  | requestException (msg : String)
  | valueError (msg : String)
deriving DecidableEq, Repr

/-- The class test done by `except requests.RequestException`. -/
def PyExc.isRequestException : PyExc → Bool
  | .requestException _ => true
  | _ => false

/-- Python `str(e)` for the embedded exceptions. -/
def PyExc.str : PyExc → String
  | .nameError n => "name '" ++ n ++ "' is not defined"
  | .requestException m => m
  | .valueError m => m

/-- Characters valid in scheme names (`scheme_chars`). -/
def schemeChars : List Char :=
  "abcdefghijklmnopqrstuvwxyzABCDEFGHIJKLMNOPQRSTUVWXYZ0123456789+-.".toList

/-- Scheme table `uses_relative`. -/
def usesRelative : List (List Char) :=
  ["", "ftp", "http", "gopher", "nntp", "imap", "wais", "file", "https",
   "shttp", "mms", "prospero", "rtsp", "rtspu", "sftp", "svn", "svn+ssh",
   "ws", "wss"].map String.toList

/-- Scheme table `uses_netloc`. -/
def usesNetloc : List (List Char) :=
  ["", "ftp", "http", "gopher", "nntp", "telnet", "imap", "wais", "file",
   "mms", "https", "shttp", "snews", "prospero", "rtsp", "rtspu", "rsync",
   "svn", "svn+ssh", "sftp", "nfs", "git", "git+ssh", "ws", "wss"].map
    String.toList

/-- Scheme table `uses_params`. -/
def usesParams : List (List Char) :=
  ["", "ftp", "hdl", "prospero", "http", "imap", "https", "shttp", "rtsp",
   "rtspu", "sip", "sips", "mms", "sftp", "tel"].map String.toList

/-- Removal of `_UNSAFE_URL_BYTES_TO_REMOVE` (tab, CR, LF), applied by
`urlsplit` to both the url and the default scheme
(`url.replace(b, "")` for each of the three). -/
def removeUnsafe (l : List Char) : List Char :=
  l.filter (fun c => !(c = '\t' || c = '\r' || c = '\n'))

/-- Python `url.split(sep, 1)` for a separator known to occur: part before the
first `sep` and part after it. -/
def splitAtFirst (sep : Char) (l : List Char) : List Char × List Char :=
  (l.takeWhile (· ≠ sep), (l.dropWhile (· ≠ sep)).drop 1)

/-- Result of `urlsplit`. -/
structure SplitResult where
  scheme : List Char
  netloc : List Char
  path : List Char
  query : List Char
  fragment : List Char
deriving DecidableEq, Repr

/-- Scheme-detection step of `urlsplit`: if the url has a `:` at position
`i > 0`, its first character is an ASCII letter and everything before the `:`
is in `scheme_chars`, the scheme is that leading part lowercased and the url loses
it; otherwise the default scheme is kept. -/
def splitScheme (defaultScheme url : List Char) : List Char × List Char :=
  match url.findIdx? (· = ':') with
  | some i =>
    if 0 < i ∧ (url.headD ' ').isAlpha ∧ (url.take i).all (· ∈ schemeChars)
    then ((url.take i).map Char.toLower, url.drop (i + 1))
    else (defaultScheme, url)
  | none => (defaultScheme, url)

/-- A netloc delimiter (`_splitnetloc` looks for the earliest of `/ ? #`). -/
def isNetlocDelim (c : Char) : Bool :=
  c = '/' || c = '?' || c = '#'

/-- Netloc-detection step of `urlsplit`: when the url starts with `//`,
split off everything up to the earliest delimiter (`_splitnetloc`, whose
minimum-of-first-occurrences is exactly the longest delimiter-free leading run);
otherwise the netloc is empty. -/
def splitNetloc (url2 : List Char) : List Char × List Char :=
  if url2.take 2 = ['/', '/'] then
    ((url2.drop 2).takeWhile (fun c => !isNetlocDelim c),
     (url2.drop 2).dropWhile (fun c => !isNetlocDelim c))
  else ([], url2)

/-- Fragment-detection step of `urlsplit`:
`if allow_fragments and '#' in url: url, fragment = url.split('#', 1)`. -/
def splitFragmentPart (allowFragments : Bool) (url3 : List Char) :
    List Char × List Char :=
  if allowFragments ∧ '#' ∈ url3 then splitAtFirst '#' url3 else (url3, [])

/-- Query-detection step of `urlsplit`:
`if '?' in url: url, query = url.split('?', 1)`. -/
def splitQueryPart (url4 : List Char) : List Char × List Char :=
  if '?' ∈ url4 then splitAtFirst '?' url4 else (url4, [])

/-- CPython 3.11 `urlsplit(url, scheme, allow_fragments)`. -/
def urlsplitCore (url0 scheme0 : List Char) (allowFragments : Bool) :
    Except PyExc SplitResult :=
  let url1 := removeUnsafe url0
  let scheme1 := removeUnsafe scheme0
  let scheme := (splitScheme scheme1 url1).1
  let url2 := (splitScheme scheme1 url1).2
  let netloc := (splitNetloc url2).1
  let url3 := (splitNetloc url2).2
  if ('[' ∈ netloc ∧ ']' ∉ netloc) ∨ (']' ∈ netloc ∧ '[' ∉ netloc) then
    .error (.valueError "Invalid IPv6 URL")
  else
    let url4 := (splitFragmentPart allowFragments url3).1
    let fragment := (splitFragmentPart allowFragments url3).2
    let url5 := (splitQueryPart url4).1
    let query := (splitQueryPart url4).2
    .ok ⟨scheme, netloc, url5, query, fragment⟩

/-- Result of `urlparse` (adds the `params` component). -/
structure ParseResult where
  scheme : List Char
  netloc : List Char
  path : List Char
  params : List Char
  query : List Char
  fragment : List Char
deriving DecidableEq, Repr

/-- The last `/`-free tail of a list (what follows the last `/`;
the whole list when there is no `/`). -/
def afterLastSlash (l : List Char) : List Char :=
  (l.reverse.takeWhile (· ≠ '/')).reverse

/-- CPython `_splitparams(url)`: split at the first `;` that occurs at or
after the last `/` (at the first `;` anywhere when there is no `/`;
the caller guarantees a `;` is present in that case). -/
def splitParams (url : List Char) : List Char × List Char :=
  if '/' ∈ url then
    let post := afterLastSlash url
    let preIncl := url.take (url.length - post.length)
    if ';' ∈ post then
      (preIncl ++ post.takeWhile (· ≠ ';'), (post.dropWhile (· ≠ ';')).drop 1)
    else (url, [])
  else
    (url.takeWhile (· ≠ ';'), (url.dropWhile (· ≠ ';')).drop 1)

/-- CPython 3.11 `urlparse(url, scheme, allow_fragments)`. -/
def urlparseCore (url scheme : List Char) (allowFragments : Bool) :
    Except PyExc ParseResult :=
  match urlsplitCore url scheme allowFragments with
  | .error e => .error e
  | .ok s =>
    if s.scheme ∈ usesParams ∧ ';' ∈ s.path then
      .ok ⟨s.scheme, s.netloc, (splitParams s.path).1, (splitParams s.path).2,
           s.query, s.fragment⟩
    else
      .ok ⟨s.scheme, s.netloc, s.path, [], s.query, s.fragment⟩

/-- CPython 3.11 `urlunsplit((scheme, netloc, url, query, fragment))`. -/
def urlunsplitCore (scheme netloc url query fragment : List Char) :
    List Char :=
  let url1 :=
    if netloc ≠ [] ∨ (scheme ≠ [] ∧ scheme ∈ usesNetloc ∧ url.take 2 ≠ ['/', '/'])
    then
      let u := if url ≠ [] ∧ url.take 1 ≠ ['/'] then '/' :: url else url
      '/' :: '/' :: (netloc ++ u)
    else url
  let url2 := if scheme ≠ [] then scheme ++ ':' :: url1 else url1
  let url3 := if query ≠ [] then url2 ++ '?' :: query else url2
  if fragment ≠ [] then url3 ++ '#' :: fragment else url3

/-- CPython 3.11 `urlunparse`: reattach params, then `urlunsplit`. -/
def urlunparseCore (pr : ParseResult) : List Char :=
  let url := if pr.params ≠ [] then pr.path ++ ';' :: pr.params else pr.path
  urlunsplitCore pr.scheme pr.netloc url pr.query pr.fragment

/-- Python `str.split(sep)` for a one-character separator: keeps empty pieces,
never returns an empty list. -/
def splitChar (sep : Char) : List Char → List (List Char)
  | [] => [[]]
  | x :: xs =>
    if x = sep then [] :: splitChar sep xs
    else
      match splitChar sep xs with
      | [] => [[x]]
      | h :: t => (x :: h) :: t

/-- The slice assignment `segments[1:-1] = filter(None, segments[1:-1])`:
drop empty segments strictly between the first and the last. -/
def filterMiddle (segs : List (List Char)) : List (List Char) :=
  match segs with
  | [] => []
  | a :: rest =>
    match rest.getLast? with
    | none => [a]
    | some lastSeg => a :: ((rest.dropLast.filter (· ≠ [])) ++ [lastSeg])

/-- The segment-resolution loop of `urljoin`: `..` pops (ignoring an empty
stack), `.` is dropped, anything else is appended. -/
def resolveSegs (segs : List (List Char)) : List (List Char) :=
  segs.foldl
    (fun acc seg =>
      if seg = ['.'] then acc
      else if seg = ['.', '.'] then acc.dropLast
      else acc ++ [seg]) []

/-- CPython 3.11 `urljoin(base, url, allow_fragments)`. -/
def urljoinCore (base url : List Char) (allowFragments : Bool) :
    Except PyExc (List Char) :=
  if base = [] then .ok url
  else if url = [] then .ok base
  else
    match urlparseCore base [] allowFragments with
    | .error e => .error e
    | .ok b =>
    match urlparseCore url b.scheme allowFragments with
    | .error e => .error e
    | .ok u =>
    if u.scheme ≠ b.scheme ∨ u.scheme ∉ usesRelative then .ok url
    else
      let inUN := u.scheme ∈ usesNetloc
      if inUN ∧ u.netloc ≠ [] then
        .ok (urlunparseCore ⟨u.scheme, u.netloc, u.path, u.params, u.query, u.fragment⟩)
      else
        let netloc := if inUN then b.netloc else u.netloc
        if u.path = [] ∧ u.params = [] then
          let query := if u.query = [] then b.query else u.query
          .ok (urlunparseCore ⟨u.scheme, netloc, b.path, b.params, query, u.fragment⟩)
        else
          let baseParts0 := splitChar '/' b.path
          let baseParts :=
            if baseParts0.getLast? ≠ some [] then baseParts0.dropLast
            else baseParts0
          let segments :=
            if u.path.take 1 = ['/'] then splitChar '/' u.path
            else filterMiddle (baseParts ++ splitChar '/' u.path)
          let resolved0 := resolveSegs segments
          let resolved :=
            match segments.getLast? with
            | some s => if s = ['.'] ∨ s = ['.', '.'] then resolved0 ++ [[]]
                        else resolved0
            | none => resolved0
          let joined := List.intercalate ['/'] resolved
          let joined := if joined = [] then ['/'] else joined
          .ok (urlunparseCore ⟨u.scheme, netloc, joined, u.params, u.query, u.fragment⟩)

/-- CPython 3.11 `urldefrag(url)`: defragmented url and the fragment. -/
def urldefragCore (url : List Char) : Except PyExc (List Char × List Char) :=
  if '#' ∈ url then
    match urlparseCore url [] true with
    | .error e => .error e
    | .ok pr =>
      .ok (urlunparseCore ⟨pr.scheme, pr.netloc, pr.path, pr.params, pr.query, []⟩,
           pr.fragment)
  else .ok (url, [])

/-! ## `guess_css_name` and the inline resolve step of `main` -/

/-- Suffix test on lists (`base.lower().endswith(".css")` after mapping
`Char.toLower`; CPython's `str.lower` agrees with ASCII lowering on every
character whose lowering could influence a `.css` suffix test). -/
def endsWithSeq (l suff : List Char) : Bool :=
  decide (suff.length ≤ l.length ∧ l.drop (l.length - suff.length) = suff)

/-- POSIX `os.path.basename(p)`: everything after the last `/`
(`p[p.rfind('/') + 1:]`). -/
def osBasename (p : List Char) : List Char :=
  afterLastSlash p

/-- Function `guess_css_name` from `d.py` (lines 41-48).  `urlparse` can in principle
raise, so the result is an `Except`; the error branch merely propagates. -/
def guess_css_name (cssUrl : String) (idx : Nat) : Except PyExc String :=
  match urlparseCore cssUrl.toList [] true with
  | .error e => .error e
  | .ok parsed =>
    let base := osBasename parsed.path
    if base ≠ [] ∧ endsWithSeq (base.map Char.toLower) ".css".toList then
      .ok (safe_filename ⟨base⟩ "file")
    else if base ≠ [] then
      .ok (safe_filename ⟨base⟩ "file" ++ ".css")
    else
      .ok ("style_" ++ toString idx ++ ".css")

/-- Lines 98-105 of `main`: join the href against the page URL, drop the
fragment, and skip (`none`) when the scheme of the result is not http(s);
`some absUrl` means the reference proceeds to the download step. -/
def resolveStep (pageUrl href : String) : Except PyExc (Option String) :=
  match urljoinCore pageUrl.toList href.toList true with
  | .error e => .error e
  | .ok absUrl0 =>
  match urldefragCore absUrl0 with
  | .error e => .error e
  | .ok d =>
  match urlparseCore d.1 [] true with
  | .error e => .error e
  | .ok pr =>
    let scheme := pr.scheme.map Char.toLower
    if scheme = "http".toList ∨ scheme = "https".toList then
      .ok (some ⟨d.1⟩)
    else
      .ok none

/-! ## The entry point `main`

`main` (lines 51-137) is modelled as a pure function from a `World` — the
network, the HTML parser and the working directory, i.e. everything outside
the program text — to a list of performed effects plus an outcome.

Faithfulness notes:

* Lines 52-56 (the `argparse` block) are commented out in the source, so the
  name `args` is never bound in `main`; `argsBinding` is therefore `none`,
  and evaluating `args.timeout` (line 77, again line 109) raises
  `NameError("args")`.  The `try`/`except requests.RequestException` blocks
  around those lines do not catch a `NameError`.
* `requests.Session.get` followed by `raise_for_status` is the oracle
  `World.net`; a network failure, timeout or error status is an `Except.error`
  carrying the exception text (all are `requests.RequestException`s).
  `resp.encoding = resp.apparent_encoding; resp.text` is modelled by the
  oracle returning the decoded text directly.
* `BeautifulSoup(html, "html.parser")` with `find_all("link", rel=...)` is
  `World.parseLinks` (the `<link>` elements in document order) followed by the
  literal rel filter; an element's `rel` value is carried in its `str(v)`
  form.  The in-place tree mutation `link["href"] = local_rel` is modelled by
  returning the updated element list.
* Filesystem paths are lists of components; `Path.cwd()` is `World.cwd`,
  assumed canonical and absolute, so `Path.resolve` and `os.path.abspath`
  are the identity on the paths the program builds. -/

/-- A decoded HTTP response: final (post-redirect) URL and decoded body. -/
structure Resp where
  url : String
  text : String
deriving DecidableEq, Repr

/-- One `<link>` element: the `str()` form of its `rel` attribute value
(absent when the attribute is missing) and its `href` attribute. -/
structure Element where
  rel : Option String
  href : Option String
deriving DecidableEq, Repr

/-- Observable effects of a run, in order. -/
inductive Eff where
  | mkdirP (path : List String)
  | httpGet (url : String) (timeout : Nat)
  | writeText (path : List String) (content : String)
  | outLine (s : String)
  | errLine (s : String)
deriving DecidableEq, Repr

def Eff.isWrite : Eff → Bool
  | .writeText _ _ => true
  | _ => false

def Eff.isGet : Eff → Bool
  | .httpGet _ _ => true
  | _ => false

def Eff.isErrLine : Eff → Bool
  | .errLine _ => true
  | _ => false

def Eff.isOutLine : Eff → Bool
  | .outLine _ => true
  | _ => false

/-- How a run ends. -/
inductive Outcome where
  | finished
  | exited (code : Nat)
  | uncaught (e : PyExc)
deriving DecidableEq, Repr

/-- Everything outside the program text. -/
structure World where
  cwd : List String
  net : String → Nat → Except String Resp
  parseLinks : String → List Element

/-- The attributes an `argparse` namespace would carry
(`url`, `--out`, `--timeout`). -/
structure ArgsNS where
  url : String
  out : String
  timeout : Nat
deriving DecidableEq, Repr

/-- The binding of the name `args` in `main`'s scope.  The assignment
`args = parser.parse_args()` (line 56) is commented out in the source, as is
the whole `argparse` block, so `args` is unbound: `none`. -/
def argsBinding : Option ArgsNS := none

/-- Evaluating the expression `args.timeout`: a `NameError` when `args` is
unbound, the field value otherwise. -/
def evalArgsTimeout (b : Option ArgsNS) : Except PyExc Nat :=
  match b with
  | none => .error (.nameError "args")
  | some a => .ok a.timeout

/-- The hard-coded target of line 58. -/
def targetUrl : String :=
  "https://www.canva.com/design/DAHACvYL71I/293rQA29YER5rxNPb1QX-A/view#1"

/-- Substring test (Python `in` on strings). -/
def containsSeq (l pat : List Char) : Bool :=
  match l with
  | [] => pat.isEmpty
  | _ :: xs => if l.take pat.length = pat then true else containsSeq xs pat

/-- The rel filter of line 89:
`lambda v: v and "stylesheet" in str(v).lower()`. -/
def relMatches : Option String → Bool
  | none => false
  | some v => v ≠ "" && containsSeq (v.toList.map Char.toLower) "stylesheet".toList

/-- Result of `soup.find_all("link", rel=...)`: the stylesheet link tags, document
order. -/
def stylesheetTags (links : List Element) : List Element :=
  links.filter (fun e => relMatches e.rel)

/-- Python `enumerate(link_tags, start=1)`. -/
def enumerate1 (tags : List Element) : List (Nat × Element) :=
  (List.range' 1 tags.length).zip tags

/-- Length of the longest common leading run of two component lists
(`os.path.commonprefix` on already-split paths). -/
def commonLeadLen : List String → List String → Nat
  | a :: as, b :: bs => if a = b then 1 + commonLeadLen as bs else 0
  | _, _ => 0

/-- POSIX `os.path.relpath(path, start)` on absolute, canonical component
lists (so that `abspath` is the identity). -/
def relpathComps (path start : List String) : String :=
  let pl := path.filter (· ≠ "")
  let sl := start.filter (· ≠ "")
  let i := commonLeadLen sl pl
  let rel := List.replicate (sl.length - i) ".." ++ pl.drop i
  if rel = [] then "." else String.intercalate "/" rel

/-- Python `str.replace("\\", "/")` (a no-op on the POSIX paths built here,
kept for fidelity to line 121). -/
def backslashToSlash (s : String) : String :=
  ⟨s.toList.map (fun c => if c = '\\' then '/' else c)⟩

/-- Python `dict` assignment `d[k] = v`: overwrite in place or append. -/
def dictSet (d : List (String × String)) (k v : String) :
    List (String × String) :=
  if d.any (fun p => p.1 = k) then
    d.map (fun p => if p.1 = k then (k, v) else p)
  else d ++ [(k, v)]

/-- Rendering of an absolute component path (printed Path objects). -/
def renderPath (comps : List String) : String :=
  "/" ++ String.intercalate "/" comps

def warnMsg (absUrl e : String) : String :=
  "[warn] Failed to fetch CSS: " ++ absUrl ++ " (" ++ e ++ ")"

def okCssMsg (absUrl rel : String) : String :=
  "[ok] CSS saved: " ++ absUrl ++ " -> " ++ rel

/-- One iteration of the `for` loop of `main` (lines 93-127) for the link with
1-based ordinal `i`.  Returns the effects of the iteration and either the
exception that aborts the whole run (`ValueError` from URL parsing or the
`NameError` from the unbound `args` at line 109 — neither is caught by the
`except requests.RequestException` around the fetch) or the element's final
state plus the updated `downloaded` dict. -/
def processTag (argsB : Option ArgsNS) (w : World) (pageUrl : String)
    (outDir : List String) (i : Nat) (link : Element)
    (dl : List (String × String)) :
    List Eff × Except PyExc (Element × List (String × String)) :=
  match link.href with
  | none => ([], .ok (link, dl))
  | some href =>
    if href = "" then ([], .ok (link, dl))
    else
      match resolveStep pageUrl href with
      | .error e => ([], .error e)
      | .ok none => ([], .ok (link, dl))
      | .ok (some absUrl) =>
        match evalArgsTimeout argsB with
        | .error e => ([], .error e)
        | .ok tmo =>
          match w.net absUrl tmo with
          | .error msg =>
            ([.httpGet absUrl tmo, .errLine (warnMsg absUrl msg)], .ok (link, dl))
          | .ok resp =>
            match guess_css_name absUrl i with
            | .error e => ([.httpGet absUrl tmo], .error e)
            | .ok cssName =>
              let localPath := outDir ++ ["assets", "css", cssName]
              let localRel := backslashToSlash (relpathComps localPath outDir)
              ([.httpGet absUrl tmo, .writeText localPath resp.text,
                .outLine (okCssMsg absUrl localRel)],
               .ok (⟨link.rel, some localRel⟩, dictSet dl absUrl localRel))

/-- The whole `for` loop, short-circuiting on an uncaught exception but
keeping the effects performed so far. -/
def processTags (argsB : Option ArgsNS) (w : World) (pageUrl : String)
    (outDir : List String) :
    List (Nat × Element) → List (String × String) →
    List Eff × Except PyExc (List Element × List (String × String))
  | [], dl => ([], .ok ([], dl))
  | (i, link) :: rest, dl =>
    match processTag argsB w pageUrl outDir i link dl with
    | (effs, .error e) => (effs, .error e)
    | (effs, .ok (link', dl')) =>
      match processTags argsB w pageUrl outDir rest dl' with
      | (effs', .error e) => (effs ++ effs', .error e)
      | (effs', .ok (rest', dl'')) => (effs ++ effs', .ok (link' :: rest', dl''))

/-- Write the per-tag updates back into the document: the `for` loop mutated
the n-th stylesheet tag in place, so the n-th qualifying element of the parsed
document is replaced by its updated state. -/
def mergeTags : List Element → List Element → List Element
  | [], _ => []
  | e :: es, upd =>
    if relMatches e.rel then
      match upd with
      | u :: us => u :: mergeTags es us
      | [] => e :: mergeTags es []
    else e :: mergeTags es upd

/-- Serialization `str(soup)` restricted to the modelled elements: a rendering that lists
every link element with its current `rel` and `href`. -/
def serializeDoc (links : List Element) : String :=
  String.intercalate "\n" (links.map (fun e =>
    "<link rel=\"" ++ (e.rel.getD "") ++ "\"" ++
      (match e.href with
       | some h => " href=\"" ++ h ++ "\""
       | none => "") ++ ">"))

/-- Entry point `main` (lines 51-137): directory creation, the page fetch inside
`try`/`except requests.RequestException`, parsing, the stylesheet loop,
serialization and the summary.  Evaluation order of line 77 is Python's:
the argument expression `args.timeout` is evaluated before `fetch` is
invoked, so its `NameError` pre-empts the page fetch, and the handler,
which only matches `requests.RequestException`, lets it escape. -/
def mainRun (w : World) : List Eff × Outcome :=
  let outDir := w.cwd ++ ["example"]
  let cssDir := outDir ++ ["assets", "css"]
  let t0 := [Eff.mkdirP outDir, Eff.mkdirP cssDir]
  match evalArgsTimeout argsBinding with
  | .error e =>
    if e.isRequestException then
      (t0 ++ [.errLine ("[error] Failed to fetch page: " ++ e.str)], .exited 1)
    else
      (t0, .uncaught e)
  | .ok tmo =>
    match w.net targetUrl tmo with
    | .error msg =>
      (t0 ++ [.httpGet targetUrl tmo,
              .errLine ("[error] Failed to fetch page: " ++ msg)], .exited 1)
    | .ok pageResp =>
      let html := pageResp.text
      let links := w.parseLinks html
      let linkTags := stylesheetTags links
      let (effs, r) := processTags argsBinding w pageResp.url outDir
        (enumerate1 linkTags) []
      match r with
      | .error e => (t0 ++ [.httpGet targetUrl tmo] ++ effs, .uncaught e)
      | .ok (finalTags, dl) =>
        let finalDoc := mergeTags links finalTags
        let indexPath := outDir ++ ["index.html"]
        (t0 ++ [.httpGet targetUrl tmo] ++ effs ++
          [.writeText indexPath (serializeDoc finalDoc),
           .outLine ("[ok] HTML saved: " ++ renderPath indexPath),
           .outLine "\nDone.",
           .outLine ("Output directory: " ++ renderPath outDir),
           .outLine ("CSS files downloaded: " ++ toString dl.length)],
         .finished)

/-! ## Fragment-freeness of the url pipeline

The resolve step is meant to strip fragments; the lemmas below show no `#`
survives in any non-fragment component and hence in a defragmented URL. -/

theorem mem_takeWhileNe {sep x : Char} {l : List Char}
    (h : x ∈ l.takeWhile (· ≠ sep)) : x ≠ sep := by
  simpa using List.mem_takeWhile_imp h

theorem not_mem_netlocTake (l : List Char) :
    '#' ∉ l.takeWhile (fun c => !isNetlocDelim c) := by
  intro h
  have := List.mem_takeWhile_imp h
  simp [isNetlocDelim] at this

theorem schemeChars_toLower_ne_hash : ∀ c ∈ schemeChars, c.toLower ≠ '#' := by
  decide

theorem splitScheme_fst_cases (d url : List Char) :
    (splitScheme d url).1 = d ∨
    ∃ i, ((url.take i).all (· ∈ schemeChars)) = true ∧
      (splitScheme d url).1 = (url.take i).map Char.toLower := by
  rw [splitScheme]
  split
  · rename_i i hfi
    split
    · rename_i hc
      exact Or.inr ⟨i, hc.2.2, rfl⟩
    · exact Or.inl rfl
  · exact Or.inl rfl

theorem splitScheme_fst_no_hash (d url : List Char) (hd : '#' ∉ d) :
    '#' ∉ (splitScheme d url).1 := by
  rcases splitScheme_fst_cases d url with h | ⟨i, hall, h⟩
  · rw [h]; exact hd
  · rw [h]
    intro hm
    rcases List.mem_map.mp hm with ⟨y, hy, hly⟩
    rw [List.all_eq_true] at hall
    have hy' : y ∈ schemeChars := by simpa using hall y hy
    exact schemeChars_toLower_ne_hash y hy' hly

theorem splitNetloc_fst_no_hash (u : List Char) : '#' ∉ (splitNetloc u).1 := by
  rw [splitNetloc]
  split
  · exact not_mem_netlocTake _
  · simp

theorem splitFragmentPart_fst_no_hash (u : List Char) :
    '#' ∉ (splitFragmentPart true u).1 := by
  rw [splitFragmentPart]
  split
  · exact fun hm => mem_takeWhileNe hm rfl
  · rename_i hcond
    exact fun hm => hcond ⟨rfl, hm⟩

theorem mem_splitQueryPart_fst {x : Char} {u : List Char}
    (h : x ∈ (splitQueryPart u).1) : x ∈ u := by
  rw [splitQueryPart] at h
  split at h
  · exact (List.takeWhile_sublist _).subset h
  · exact h

theorem mem_splitQueryPart_snd {x : Char} {u : List Char}
    (h : x ∈ (splitQueryPart u).2) : x ∈ u := by
  rw [splitQueryPart] at h
  split at h
  · exact (List.dropWhile_sublist _).subset ((List.drop_sublist 1 _).subset h)
  · simp at h

theorem urlsplitCore_no_hash (url : List Char) (s : SplitResult)
    (h : urlsplitCore url [] true = .ok s) :
    '#' ∉ s.scheme ∧ '#' ∉ s.netloc ∧ '#' ∉ s.path ∧ '#' ∉ s.query := by
  rw [urlsplitCore] at h
  split at h
  · exact absurd h (by simp)
  · injection h with h
    subst h
    refine ⟨?_, ?_, ?_, ?_⟩
    · exact splitScheme_fst_no_hash _ _ (by simp [removeUnsafe])
    · exact splitNetloc_fst_no_hash _
    · exact fun hm =>
        splitFragmentPart_fst_no_hash _ (mem_splitQueryPart_fst hm)
    · exact fun hm =>
        splitFragmentPart_fst_no_hash _ (mem_splitQueryPart_snd hm)

theorem mem_afterLastSlash {x : Char} {l : List Char}
    (h : x ∈ afterLastSlash l) : x ∈ l := by
  rw [afterLastSlash] at h
  rw [List.mem_reverse] at h
  have := (List.takeWhile_sublist _).subset h
  rwa [List.mem_reverse] at this

theorem mem_splitParams_fst {x : Char} {url : List Char}
    (h : x ∈ (splitParams url).1) : x ∈ url := by
  simp only [splitParams] at h
  split at h
  · split at h
    · rcases List.mem_append.mp h with h1 | h2
      · exact (List.take_sublist _ _).subset h1
      · exact mem_afterLastSlash ((List.takeWhile_sublist _).subset h2)
    · exact h
  · exact (List.takeWhile_sublist _).subset h

theorem mem_splitParams_snd {x : Char} {url : List Char}
    (h : x ∈ (splitParams url).2) : x ∈ url := by
  simp only [splitParams] at h
  split at h
  · split at h
    · exact mem_afterLastSlash
        ((List.dropWhile_sublist _).subset ((List.drop_sublist 1 _).subset h))
    · simp at h
  · exact (List.dropWhile_sublist _).subset ((List.drop_sublist 1 _).subset h)

theorem urlparseCore_no_hash (url : List Char) (pr : ParseResult)
    (h : urlparseCore url [] true = .ok pr) :
    '#' ∉ pr.scheme ∧ '#' ∉ pr.netloc ∧ '#' ∉ pr.path ∧ '#' ∉ pr.params ∧
      '#' ∉ pr.query := by
  rw [urlparseCore] at h
  split at h
  · exact absurd h (by simp)
  · rename_i s hs
    obtain ⟨h1, h2, h3, h4⟩ := urlsplitCore_no_hash url s hs
    split at h
    · injection h with h
      subst h
      exact ⟨h1, h2, fun hm => h3 (mem_splitParams_fst hm),
             fun hm => h3 (mem_splitParams_snd hm), h4⟩
    · injection h with h
      subst h
      exact ⟨h1, h2, h3, by simp, h4⟩

theorem urlunsplitCore_no_hash (scheme netloc url query : List Char)
    (h1 : '#' ∉ scheme) (h2 : '#' ∉ netloc) (h3 : '#' ∉ url) (h4 : '#' ∉ query) :
    '#' ∉ urlunsplitCore scheme netloc url query [] := by
  have hbody :
      '#' ∉ (if netloc ≠ [] ∨ (scheme ≠ [] ∧ scheme ∈ usesNetloc ∧ url.take 2 ≠ ['/', '/'])
             then '/' :: '/' :: (netloc ++ (if url ≠ [] ∧ url.take 1 ≠ ['/'] then '/' :: url else url))
             else url) := by
    split
    · intro hm
      rcases List.mem_cons.mp hm with hc | hm
      · exact absurd hc (by decide)
      rcases List.mem_cons.mp hm with hc | hm
      · exact absurd hc (by decide)
      rcases List.mem_append.mp hm with ha | hb
      · exact h2 ha
      · revert hb
        split
        · intro hb
          rcases List.mem_cons.mp hb with hc | hd
          · exact absurd hc (by decide)
          · exact h3 hd
        · exact fun hb => h3 hb
    · exact h3
  have hmid : ∀ u1 : List Char, '#' ∉ u1 →
      '#' ∉ (if scheme ≠ [] then scheme ++ ':' :: u1 else u1) := by
    intro u1 hu1
    split
    · intro hm
      rcases List.mem_append.mp hm with ha | hb
      · exact h1 ha
      · rcases List.mem_cons.mp hb with hc | hd
        · exact absurd hc (by decide)
        · exact hu1 hd
    · exact hu1
  have hq : ∀ u2 : List Char, '#' ∉ u2 →
      '#' ∉ (if query ≠ [] then u2 ++ '?' :: query else u2) := by
    intro u2 hu2
    split
    · intro hm
      rcases List.mem_append.mp hm with ha | hb
      · exact hu2 ha
      · rcases List.mem_cons.mp hb with hc | hd
        · exact absurd hc (by decide)
        · exact h4 hd
    · exact hu2
  have hfr : ∀ u3 : List Char, '#' ∉ u3 →
      '#' ∉ (if ([] : List Char) ≠ [] then u3 ++ '#' :: [] else u3) := by
    intro u3 hu3
    rw [if_neg (by simp)]
    exact hu3
  rw [urlunsplitCore]
  exact hfr _ (hq _ (hmid _ hbody))

theorem urlunparseCore_no_hash (pr : ParseResult)
    (h1 : '#' ∉ pr.scheme) (h2 : '#' ∉ pr.netloc) (h3 : '#' ∉ pr.path)
    (h4 : '#' ∉ pr.params) (h5 : '#' ∉ pr.query)
    (h6 : pr.fragment = []) :
    '#' ∉ urlunparseCore pr := by
  rw [urlunparseCore, h6]
  have hurl : '#' ∉ (if pr.params ≠ [] then pr.path ++ ';' :: pr.params else pr.path) := by
    split
    · intro hm
      rcases List.mem_append.mp hm with ha | hb
      · exact h3 ha
      · rcases List.mem_cons.mp hb with hc | hd
        · exact absurd hc (by decide)
        · exact h4 hd
    · exact h3
  exact urlunsplitCore_no_hash _ _ _ _ h1 h2 hurl h5

theorem urldefragCore_fst_no_hash (url : List Char)
    (d : List Char × List Char) (h : urldefragCore url = .ok d) :
    '#' ∉ d.1 := by
  rw [urldefragCore] at h
  split at h
  · split at h
    · exact absurd h (by simp)
    · rename_i pr hp
      injection h with h
      subst h
      obtain ⟨h1, h2, h3, h4, h5⟩ := urlparseCore_no_hash url pr hp
      exact urlunparseCore_no_hash ⟨pr.scheme, pr.netloc, pr.path, pr.params, pr.query, []⟩
        h1 h2 h3 h4 h5 rfl
  · rename_i hno
    injection h with h
    subst h
    exact hno

theorem resolveStep_some_no_hash (pageUrl href u : String)
    (h : resolveStep pageUrl href = .ok (some u)) : '#' ∉ u.toList := by
  simp only [resolveStep] at h
  split at h
  · exact absurd h (by simp)
  · rename_i a hj
    split at h
    · exact absurd h (by simp)
    · rename_i d hd
      split at h
      · exact absurd h (by simp)
      · rename_i pr hp
        split at h
        · injection h with h
          injection h with h
          subst h
          exact urldefragCore_fst_no_hash a d hd
        · exact absurd h (by simp)

theorem resolveStep_some_scheme (pageUrl href u : String)
    (h : resolveStep pageUrl href = .ok (some u)) :
    ∃ pr, urlparseCore u.toList [] true = .ok pr ∧
      (pr.scheme.map Char.toLower = "http".toList ∨
       pr.scheme.map Char.toLower = "https".toList) := by
  simp only [resolveStep] at h
  split at h
  · exact absurd h (by simp)
  · rename_i a hj
    split at h
    · exact absurd h (by simp)
    · rename_i d hd
      split at h
      · exact absurd h (by simp)
      · rename_i pr hp
        split at h
        · rename_i hsch
          injection h with h
          injection h with h
          subst h
          exact ⟨pr, hp, hsch⟩
        · exact absurd h (by simp)

theorem resolveStep_skip (pageUrl href : String) (a : List Char)
    (d : List Char × List Char) (pr : ParseResult)
    (hj : urljoinCore pageUrl.toList href.toList true = .ok a)
    (hd : urldefragCore a = .ok d)
    (hp : urlparseCore d.1 [] true = .ok pr)
    (hs : ¬ (pr.scheme.map Char.toLower = "http".toList ∨
             pr.scheme.map Char.toLower = "https".toList)) :
    resolveStep pageUrl href = .ok none := by
  simp only [resolveStep, hj, hd, hp]
  rw [if_neg hs]

/-! ## Run-collapsing lemmas for `safe_filename` -/

theorem mem_collapseRuns : ∀ (l : List Char) (c : Char), c ∈ collapseRuns l →
    c = '_' ∨ isBadFileChar c = false
  | [], c, h => by simp [collapseRuns] at h
  | [c0], c, h => by
    simp only [collapseRuns] at h
    split at h
    · left
      simpa using h
    · rename_i hb
      right
      rcases List.mem_singleton.mp h with rfl
      simpa using hb
  | c0 :: c1 :: cs, c, h => by
    simp only [collapseRuns] at h
    split at h
    · split at h
      · exact mem_collapseRuns (c1 :: cs) c h
      · rcases List.mem_cons.mp h with rfl | h'
        · exact Or.inl rfl
        · exact mem_collapseRuns (c1 :: cs) c h'
    · rename_i hb
      rcases List.mem_cons.mp h with rfl | h'
      · right
        simpa using hb
      · exact mem_collapseRuns (c1 :: cs) c h'

theorem collapseRuns_cons_good (c : Char) (rest : List Char)
    (hc : isBadFileChar c = false) :
    collapseRuns (c :: rest) = c :: collapseRuns rest := by
  cases rest with
  | nil => simp [collapseRuns, hc]
  | cons r rs => simp [collapseRuns, hc]

theorem collapseRuns_run (run rest : List Char) (h1 : run ≠ [])
    (h2 : ∀ c ∈ run, isBadFileChar c = true)
    (h3 : ∀ c, rest.head? = some c → isBadFileChar c = false) :
    collapseRuns (run ++ rest) = '_' :: collapseRuns rest := by
  induction run with
  | nil => exact absurd rfl h1
  | cons a run' ih =>
    cases run' with
    | nil =>
      have ha : isBadFileChar a = true := h2 a (by simp)
      cases rest with
      | nil => simp [collapseRuns, ha]
      | cons r rs =>
        have hr : isBadFileChar r = false := h3 r rfl
        simp [collapseRuns, ha, hr]
    | cons b run'' =>
      have ha : isBadFileChar a = true := h2 a (by simp)
      have hb : isBadFileChar b = true := h2 b (by simp)
      have hstep : collapseRuns ((a :: b :: run'') ++ rest)
          = collapseRuns ((b :: run'') ++ rest) := by
        simp [collapseRuns, ha, hb]
      rw [hstep]
      exact ih (by simp) (fun c hc => h2 c (List.mem_cons_of_mem a hc))

/-! ## Enumeration lemmas (`enumerate(link_tags, start=1)`) -/

theorem enumerate1_ordinals (tags : List Element) :
    (enumerate1 tags).map Prod.fst = List.range' 1 tags.length := by
  rw [enumerate1]
  exact List.map_fst_zip _ _ (by simp)

theorem enumerate1_elements (tags : List Element) :
    (enumerate1 tags).map Prod.snd = tags := by
  rw [enumerate1]
  exact List.map_snd_zip _ _ (by simp)

/-! ## Lemmas for `safe_filename` -/

theorem safe_filename_all_allowed (s : String) :
    ((safe_filename s "file").toList.all
      (fun c => isPyWord c || c = '.' || c = '-')) = true := by
  simp only [safe_filename]
  split
  · decide
  · rw [List.all_eq_true]
    intro c hc
    rcases mem_collapseRuns _ c hc with rfl | h
    · decide
    · simp only [isBadFileChar, Bool.not_eq_false', Bool.or_eq_true,
        decide_eq_true_eq] at h
      simp only [Bool.or_eq_true, decide_eq_true_eq]
      tauto

theorem safe_filename_ne_empty (s : String) : safe_filename s "file" ≠ "" := by
  simp only [safe_filename]
  split
  · decide
  · rename_i hne
    intro heq
    exact hne (congrArg String.data heq)

/-! ## Concrete worlds exercising `main`'s failure scenarios -/

/-- World in which every network request fails (exercising the per-stylesheet
failure scenario: the parsed page has one stylesheet link). -/
def failWorld : World :=
  ⟨["home", "user"], fun _ _ => .error "ConnectionError: refused",
   fun _ => [⟨some "stylesheet", some "broken.css"⟩]⟩

/-- World in which the target-page fetch itself would fail. -/
def pageFailWorld : World :=
  ⟨["home", "user"], fun _ _ => .error "ReadTimeout: 20s", fun _ => []⟩

/-- World in which every fetch would succeed and the page has one stylesheet
link. -/
def okWorld : World :=
  ⟨["home", "user"], fun u _ => .ok ⟨u, "css body"⟩,
   fun _ => [⟨some "stylesheet", some "a.css"⟩]⟩

/-- World with two stylesheet links, one relative and one absolute, whose
fetches would both succeed. -/
def twoLinkWorld : World :=
  ⟨["home", "user"],
   fun u _ => .ok ⟨u, if u = targetUrl then "page markup" else "css body"⟩,
   fun _ => [⟨some "stylesheet", some "a.css"⟩,
             ⟨some "stylesheet", some "https://cdn.example.com/b.css"⟩]⟩

/-- World with two stylesheet links resolving to distinct URLs that derive
the same local filename. -/
def clashWorld : World :=
  ⟨["home", "user"], fun u _ => .ok ⟨u, "css body"⟩,
   fun _ => [⟨some "stylesheet", some "a.css"⟩,
             ⟨some "stylesheet", some "sub/a.css"⟩]⟩

/-! ## Claim theorems -/

/-- Claim C1: every run of `main` evaluates `args.timeout` at the initial page
fetch while `args` is unbound (the argparse block is commented out), so every
run ends with an uncaught `NameError` — which the surrounding handler, matching
only `requests.RequestException`, does not catch — before any page is parsed or
any file is written from fetched content: the trace holds exactly the two
directory creations, no fetch and no file write. -/
theorem c1_run_always_uncaught_nameerror (w : World) :
    mainRun w =
      ([Eff.mkdirP (w.cwd ++ ["example"]),
        Eff.mkdirP ((w.cwd ++ ["example"]) ++ ["assets", "css"])],
       Outcome.uncaught (PyExc.nameError "args")) ∧
    argsBinding = none ∧
    PyExc.isRequestException (PyExc.nameError "args") = false ∧
    ((mainRun w).1.all (fun e => !e.isWrite && !e.isGet)) = true :=
  ⟨rfl, rfl, rfl, rfl⟩

/-- Witness for C1 at a concrete world. -/
theorem c1_run_always_uncaught_nameerror_witness :
    (mainRun failWorld).2 = Outcome.uncaught (PyExc.nameError "args") := by
  rw [(c1_run_always_uncaught_nameerror failWorld).1]

/-- Claim C2 (against the code as written): in a world where a stylesheet
fetch would fail, the run aborts with the uncaught `NameError` before any
stylesheet is fetched; no warning line is emitted and no further link is
processed.  Moreover the loop body itself re-evaluates `args.timeout`
(line 109) inside its `try`, so even if the loop were reached, a link that
gets as far as the download step would abort the whole run rather than log
and continue. -/
theorem c2_stylesheet_failure_handling_unreachable :
    ((mainRun failWorld).2 = Outcome.uncaught (PyExc.nameError "args") ∧
     ((mainRun failWorld).1.all (fun e => !e.isErrLine && !e.isGet)) = true) ∧
    (∀ (w : World) (pageUrl : String) (outDir : List String) (i : Nat)
        (link : Element) (dl : List (String × String)) (hr u : String),
      link.href = some hr → hr ≠ "" →
      resolveStep pageUrl hr = .ok (some u) →
      processTag none w pageUrl outDir i link dl
        = ([], .error (.nameError "args"))) := by
  refine ⟨⟨rfl, rfl⟩, ?_⟩
  intro w pageUrl outDir i link dl hr u hhref hne hres
  simp only [processTag, hhref, hres, if_neg hne]
  rfl

/-- Witness for C2's loop-body conjunct at a concrete link. -/
theorem c2_stylesheet_failure_handling_unreachable_witness :
    processTag none failWorld "https://x.com/page" ["home", "user", "example"] 1
      ⟨some "stylesheet", some "a.css"⟩ []
      = ([], .error (.nameError "args")) := by
  exact c2_stylesheet_failure_handling_unreachable.2 failWorld "https://x.com/page"
    ["home", "user", "example"] 1 ⟨some "stylesheet", some "a.css"⟩ []
    "a.css" "https://x.com/a.css" rfl (by decide) (by rfl)

/-- Claim C3 (against the code as written): in a world where fetching the
target page would fail, the run never attempts that fetch and never reaches
the `sys.exit(1)` diagnostic path; it dies with the uncaught `NameError`
instead, so the page-fetch failure path is not the failure path actually
taken (and is not the only fatal path). -/
theorem c3_fatal_page_fetch_path_unreachable :
    (mainRun pageFailWorld).2 = Outcome.uncaught (PyExc.nameError "args") ∧
    (mainRun pageFailWorld).2 ≠ Outcome.exited 1 ∧
    ((mainRun pageFailWorld).1.all (fun e => !e.isGet && !e.isErrLine)) = true :=
  ⟨rfl, by decide, rfl⟩

/-- Claim C4 (against the code as written): even in a world where every fetch
would succeed, the run writes no stylesheet file and no serialized page, and
prints no per-stylesheet line: the processing loop is never reached, so no
reference is ever downloaded, recorded or rewritten. -/
theorem c4_mirror_invariant_loop_unreachable :
    (mainRun okWorld).2 = Outcome.uncaught (PyExc.nameError "args") ∧
    ((mainRun okWorld).1.all (fun e => !e.isWrite)) = true ∧
    ((mainRun okWorld).1.all (fun e => !e.isOutLine)) = true :=
  ⟨rfl, rfl, rfl⟩

/-- Claim C5: the resolve step of `main` joins the href against the page URL
with `urljoin` and strips the fragment (`urldefrag`), so a resolved URL never
contains `#` and always has scheme http or https; a result with any other
scheme is skipped — `.ok none`, with no fetch attempted and the link and the
`downloaded` mapping left unchanged — and the four specified examples
compute as stated. -/
theorem c5_resolve_step_spec :
    (∀ base href u, resolveStep base href = .ok (some u) →
        '#' ∉ u.toList ∧
        ∃ pr, urlparseCore u.toList [] true = .ok pr ∧
          (pr.scheme.map Char.toLower = "http".toList ∨
           pr.scheme.map Char.toLower = "https".toList)) ∧
    (∀ base href a d pr,
        urljoinCore base.toList href.toList true = .ok a →
        urldefragCore a = .ok d →
        urlparseCore d.1 [] true = .ok pr →
        ¬ (pr.scheme.map Char.toLower = "http".toList ∨
           pr.scheme.map Char.toLower = "https".toList) →
        resolveStep base href = .ok none) ∧
    (∀ (argsB : Option ArgsNS) (w : World) (pageUrl : String)
        (outDir : List String) (i : Nat) (link : Element)
        (dl : List (String × String)) (hr : String),
        link.href = some hr → hr ≠ "" →
        resolveStep pageUrl hr = .ok none →
        processTag argsB w pageUrl outDir i link dl = ([], .ok (link, dl))) ∧
    resolveStep "https://x.com/page" "/css/a.css"
      = .ok (some "https://x.com/css/a.css") ∧
    resolveStep "https://x.com/page" "a.css"
      = .ok (some "https://x.com/a.css") ∧
    resolveStep "https://x.com/page" "https://x.com/b.css#frag"
      = .ok (some "https://x.com/b.css") ∧
    resolveStep "https://x.com/page" "data:text/css,body\x7b\x7d"
      = .ok none := by
  refine ⟨?_, ?_, ?_, by rfl, by rfl, by rfl, by rfl⟩
  · intro base href u h
    exact ⟨resolveStep_some_no_hash base href u h,
           resolveStep_some_scheme base href u h⟩
  · intro base href a d pr hj hd hp hs
    exact resolveStep_skip base href a d pr hj hd hp hs
  · intro argsB w pageUrl outDir i link dl hr hhref hne hres
    simp only [processTag, hhref, hres, if_neg hne]

/-- Witness for C5 at concrete inputs. -/
theorem c5_resolve_step_spec_witness :
    ('#' ∉ ("https://x.com/b.css" : String).toList) ∧
    processTag none okWorld "https://x.com/page" ["home", "user", "example"] 1
      ⟨some "stylesheet", some "data:text/css,body\x7b\x7d"⟩ []
      = ([], .ok (⟨some "stylesheet", some "data:text/css,body\x7b\x7d"⟩, [])) := by
  constructor
  · exact (c5_resolve_step_spec.1 "https://x.com/page" "https://x.com/b.css#frag"
      "https://x.com/b.css" (by rfl)).1
  · exact c5_resolve_step_spec.2.2.1 none okWorld "https://x.com/page"
      ["home", "user", "example"] 1
      ⟨some "stylesheet", some "data:text/css,body\x7b\x7d"⟩ []
      "data:text/css,body\x7b\x7d" rfl (by decide) (by rfl)

/-- Claim C6: the derived local filename is the sanitized last path segment
when it already ends in `.css` case-insensitively, the sanitized segment with
`.css` appended when a segment exists without that suffix, and
`style_<ordinal>.css` when the path has no final segment; and the loop's
enumeration pairs every discovered stylesheet link — including ones later
skipped — with its 1-based document position.  The three specified examples
compute as stated. -/
theorem c6_guess_css_name_spec :
    (∀ (url : String) (idx : Nat) (pr : ParseResult),
        urlparseCore url.toList [] true = .ok pr →
        (osBasename pr.path ≠ [] →
          endsWithSeq ((osBasename pr.path).map Char.toLower) ".css".toList = true →
          guess_css_name url idx = .ok (safe_filename ⟨osBasename pr.path⟩ "file")) ∧
        (osBasename pr.path ≠ [] →
          endsWithSeq ((osBasename pr.path).map Char.toLower) ".css".toList = false →
          guess_css_name url idx
            = .ok (safe_filename ⟨osBasename pr.path⟩ "file" ++ ".css")) ∧
        (osBasename pr.path = [] →
          guess_css_name url idx = .ok ("style_" ++ toString idx ++ ".css"))) ∧
    (∀ tags : List Element,
        (enumerate1 tags).map Prod.fst = List.range' 1 tags.length ∧
        (enumerate1 tags).map Prod.snd = tags) ∧
    guess_css_name "https://x.com/a/b/style.CSS" 1 = .ok "style.CSS" ∧
    guess_css_name "https://x.com/a/b/theme" 2 = .ok "theme.css" ∧
    guess_css_name "https://x.com/" 3 = .ok "style_3.css" := by
  refine ⟨?_, fun tags => ⟨enumerate1_ordinals tags, enumerate1_elements tags⟩,
    by rfl, by rfl, by rfl⟩
  intro url idx pr hp
  refine ⟨?_, ?_, ?_⟩
  · intro hb hcss
    simp only [guess_css_name, hp]
    rw [if_pos ⟨hb, hcss⟩]
  · intro hb hcss
    have hneg : ¬(osBasename pr.path ≠ [] ∧
        endsWithSeq ((osBasename pr.path).map Char.toLower) ".css".toList = true) := by
      intro hand
      rw [hcss] at hand
      exact absurd hand.2 (by decide)
    simp only [guess_css_name, hp]
    rw [if_neg hneg, if_pos hb]
  · intro hb
    simp only [guess_css_name, hp]
    rw [if_neg (by simp [hb]), if_neg (by simp [hb])]

/-- Witness for C6 at a concrete URL whose path has no final segment. -/
theorem c6_guess_css_name_spec_witness :
    guess_css_name "https://x.com/" 3 = .ok ("style_" ++ toString 3 ++ ".css") :=
  ((c6_guess_css_name_spec.1 "https://x.com/" 3
    ⟨"https".toList, "x.com".toList, "/".toList, [], [], []⟩ (by rfl)).2.2) (by rfl)

/-- Claim C7 as stated is false: CPython's `\w` is Unicode-aware, so
`sanitize("é") == "é"`, whose character is outside `[A-Za-z0-9_.-]`. -/
theorem c7_counterexample_sanitize_nonascii :
    safe_filename "é" "file" = "é" ∧
    ((safe_filename "é" "file").toList.all
      (fun c => c.isAlphanum || c = '_' || c = '.' || c = '-')) = false :=
  ⟨by decide, by decide⟩

/-- Claim C7 amended: the output of `sanitize` contains only Unicode word
characters, dots and hyphens (not only ASCII ones); it is always non-empty
(`"file"` when stripping and replacement leave nothing); after trimming,
every maximal run of disallowed characters becomes a single underscore while
allowed characters pass through; and the two specified examples hold. -/
theorem c7_sanitize_amended :
    (∀ s : String, ((safe_filename s "file").toList.all
        (fun c => isPyWord c || c = '.' || c = '-')) = true) ∧
    (∀ s : String, safe_filename s "file" ≠ "") ∧
    (∀ s : String, collapseRuns (pyStrip s.toList) = [] →
        safe_filename s "file" = "file") ∧
    (∀ run rest, run ≠ [] → (∀ c ∈ run, isBadFileChar c = true) →
        (∀ c, rest.head? = some c → isBadFileChar c = false) →
        collapseRuns (run ++ rest) = '_' :: collapseRuns rest) ∧
    (∀ (c : Char) (rest : List Char), isBadFileChar c = false →
        collapseRuns (c :: rest) = c :: collapseRuns rest) ∧
    safe_filename "" "file" = "file" ∧
    safe_filename "my style!!.css" "file" = "my_style_.css" :=
  ⟨safe_filename_all_allowed, safe_filename_ne_empty,
   fun s h => by
     have h' : collapseRuns (pyStrip s.data) = [] := h
     simp [safe_filename, h'],
   collapseRuns_run, collapseRuns_cons_good, by decide, by decide⟩

/-- Witness for C7's amended run-collapse conjunct at a concrete run. -/
theorem c7_sanitize_amended_witness :
    collapseRuns ("!!".toList ++ "b".toList) = '_' :: collapseRuns "b".toList := by
  exact c7_sanitize_amended.2.2.2.1 "!!".toList "b".toList (by decide)
    (by decide)
    (by intro c hc; injection hc with h; subst h; decide)

/-- Claim C8 (against the code as written): the invocation is ignored — the
target URL is hard-coded to the Canva URL, the output directory is the fixed
`example` under the working directory, no `args` binding exists, and every
run dies with the uncaught `NameError` regardless of what was supplied. -/
theorem c8_invocation_ignored (w : World) :
    targetUrl
      = "https://www.canva.com/design/DAHACvYL71I/293rQA29YER5rxNPb1QX-A/view#1" ∧
    argsBinding = none ∧
    (mainRun w).2 = Outcome.uncaught (PyExc.nameError "args") ∧
    (mainRun w).1 = [Eff.mkdirP (w.cwd ++ ["example"]),
                     Eff.mkdirP ((w.cwd ++ ["example"]) ++ ["assets", "css"])] :=
  ⟨rfl, rfl, rfl, rfl⟩

/-- Witness for C8 at a concrete world. -/
theorem c8_invocation_ignored_witness :
    (mainRun twoLinkWorld).2 = Outcome.uncaught (PyExc.nameError "args") :=
  (c8_invocation_ignored twoLinkWorld).2.2.1

/-- Claim C9 (against the code as written): with two stylesheet links whose
fetches would both succeed, the run still writes neither `index.html` nor any
stylesheet file and reports no count: it dies with the uncaught `NameError`
first. -/
theorem c9_two_link_success_run_unreachable :
    (mainRun twoLinkWorld).2 = Outcome.uncaught (PyExc.nameError "args") ∧
    ((mainRun twoLinkWorld).1.all (fun e => !e.isWrite)) = true ∧
    ((mainRun twoLinkWorld).1.all (fun e => !e.isOutLine)) = true :=
  ⟨rfl, rfl, rfl⟩

/-- Claim C10 (against the code as written): the two links of `clashWorld`
would indeed derive the same local filename from distinct URLs, and the
`downloaded` dict would count both distinct URLs — but the run never gets
there: it dies with the uncaught `NameError` and writes nothing. -/
theorem c10_filename_clash_never_reached :
    guess_css_name "https://x.com/a.css" 1 = .ok "a.css" ∧
    guess_css_name "https://x.com/sub/a.css" 2 = .ok "a.css" ∧
    (dictSet (dictSet [] "https://x.com/a.css" "assets/css/a.css")
        "https://x.com/sub/a.css" "assets/css/a.css").length = 2 ∧
    (mainRun clashWorld).2 = Outcome.uncaught (PyExc.nameError "args") ∧
    ((mainRun clashWorld).1.all (fun e => !e.isWrite)) = true :=
  ⟨by rfl, by rfl, by rfl, rfl, rfl⟩

end DPy
